import Mathlib

/-!
Shallow embedding of the movie-catalog core (src/PythonApi/database.py and
src/PythonApi/main.py): in-memory store, filter engine, pagination,
statistics, lazy loading.  Python optional values become `Option`,
machine floats become `ℚ` (all comparisons used by the code are exact),
Python dicts keyed by strings become association lists in insertion
order, and Python's stable `sorted` becomes a stable insertion sort.
-/

set_option maxHeartbeats 1000000
set_option maxRecDepth 8000

namespace Movies

/-- Python truthiness of an optional string: `None` and `""` are falsy. -/
def pyTruthyOptStr : Option String → Bool
  | none => false
  | some s => !(s == "")

/-- Python truthiness of an optional integer: `None` and `0` are falsy. -/
def pyTruthyOptInt : Option Int → Bool
  | none => false
  | some n => !(n == 0)

/-- Python truthiness of an optional numeric value: `None` and `0` are falsy. -/
def pyTruthyOptRat : Option ℚ → Bool
  | none => false
  | some x => !(x == 0)

/-- Python truthiness of an optional list: `None` and `[]` are falsy. -/
def pyTruthyOptList : Option (List String) → Bool
  | none => false
  | some l => !l.isEmpty

/-- An entry of one of the record's mapping sequences (genres, cast, crew, ...).
Only the "name" field is ever consulted by the code, so the entry is reduced
to that optional field; `entryName` models Python's `entry.get("name", default)`. -/
structure Entry where
  name : Option String
  deriving DecidableEq

/-- Models `entry.get("name", dflt)`. -/
def entryName (e : Entry) (dflt : String) : String := e.name.getD dflt

/-- The record type (class `Movie` in models.py, fields as constructed by
`create_movie` and described in the spec's data model). -/
structure Movie where
  id : Nat
  title : Option String
  overview : Option String
  genres : List Entry
  keywords : List Entry
  tagline : Option String
  cast : List Entry
  crew : List Entry
  production_companies : List Entry
  production_countries : List Entry
  spoken_languages : List Entry
  original_language : Option String
  original_title : Option String
  release_date : Option String
  runtime : Option ℚ
  vote_average : Option ℚ
  vote_count : Option Int
  popularity : Option ℚ
  is_favorite : Bool
  personal_rating : Option ℚ
  personal_notes : Option String
  deriving DecidableEq

/-- Filter criteria (`MovieFilters`), as consumed by `_apply_filters`. -/
structure MovieFilters where
  search : Option String := none
  genres : Option (List String) := none
  year_from : Option Int := none
  year_to : Option Int := none
  rating_from : Option ℚ := none
  rating_to : Option ℚ := none
  runtime_from : Option Int := none
  runtime_to : Option Int := none
  language : Option String := none
  is_favorite : Option Bool := none
  personal_rating_from : Option ℚ := none
  personal_rating_to : Option ℚ := none
  deriving DecidableEq

/-- The filter object with every predicate group absent. -/
def emptyFilters : MovieFilters := {}

/-- Python substring test `pat in s` (contiguous, case-sensitive). -/
def strContains (s pat : String) : Bool := decide (pat.toList <:+: s.toList)

/-- The nonempty-digit-string parser underlying `pyInt?`. -/
def digitsNat? (cs : List Char) : Option Nat :=
  if cs.isEmpty then none
  else if cs.all (·.isDigit) then
    some (cs.foldl (fun a c => a * 10 + (c.toNat - 48)) 0)
  else none

/-- Strip leading and trailing whitespace (what `int(s)` tolerates). -/
def trimChars (cs : List Char) : List Char :=
  ((cs.dropWhile Char.isWhitespace).reverse.dropWhile Char.isWhitespace).reverse

/-- Python's `int(s)` on a string: strip whitespace, optional sign, digits;
anything else raises `ValueError`, modelled as `none`. -/
def pyInt? (s : String) : Option Int :=
  match trimChars s.toList with
  | '+' :: rest => (digitsNat? rest).map Int.ofNat
  | '-' :: rest => (digitsNat? rest).map (fun n => -(n : Int))
  | rest => (digitsNat? rest).map Int.ofNat

/-- Models `release_date.split("-")[0]`: the prefix before the first dash. -/
def leadingSegment (s : String) : String :=
  String.mk (s.toList.takeWhile (fun c => !(c == '-')))

/-- The year extraction shared by `_check_year_filter` and `get_stats`:
a falsy (absent or empty) date or a failing `int` parse yields `none`. -/
def parsedYear (rd : Option String) : Option Int :=
  if pyTruthyOptStr rd then pyInt? (leadingSegment (rd.getD "")) else none

/-- Embeds `MovieDatabase._check_year_filter`. -/
def check_year_filter (rd : Option String) (yf yt : Option Int) : Bool :=
  match parsedYear rd with
  | none => false
  | some y =>
    if pyTruthyOptInt yf && decide (y < yf.getD 0) then false
    else if pyTruthyOptInt yt && decide (yt.getD 0 < y) then false
    else true

/-- The text-search predicate of `_apply_filters` (title, overview, cast, crew). -/
def search_pred (term : String) (m : Movie) : Bool :=
  let t := term.toLower
  (pyTruthyOptStr m.title && strContains (m.title.getD "").toLower t) ||
  (pyTruthyOptStr m.overview && strContains (m.overview.getD "").toLower t) ||
  m.cast.any (fun c => strContains (entryName c "").toLower t) ||
  m.crew.any (fun c => strContains (entryName c "").toLower t)

/-- The genre predicate of `_apply_filters` (case-insensitive OR over names). -/
def genre_pred (gs : List String) (m : Movie) : Bool :=
  m.genres.any (fun g => (gs.map String.toLower).contains (entryName g "").toLower)

/-- One guarded filter pass `if active: filtered = [m for m in filtered if p m]`. -/
def condFilter (active : Bool) (p : Movie → Bool) (l : List Movie) : List Movie :=
  if active then l.filter p else l

/-- Embeds `MovieDatabase._apply_filters`: the fixed sequence of guarded passes. -/
def apply_filters (movies : List Movie) (filters : Option MovieFilters) : List Movie :=
  match filters with
  | none => movies
  | some f =>
    let l := condFilter (pyTruthyOptStr f.search) (search_pred (f.search.getD "")) movies
    let l := condFilter (pyTruthyOptList f.genres) (genre_pred (f.genres.getD [])) l
    let l := condFilter (pyTruthyOptInt f.year_from || pyTruthyOptInt f.year_to)
      (fun m => check_year_filter m.release_date f.year_from f.year_to) l
    let l := condFilter f.rating_from.isSome
      (fun m => pyTruthyOptRat m.vote_average && decide (f.rating_from.getD 0 ≤ m.vote_average.getD 0)) l
    let l := condFilter f.rating_to.isSome
      (fun m => pyTruthyOptRat m.vote_average && decide (m.vote_average.getD 0 ≤ f.rating_to.getD 0)) l
    let l := condFilter f.runtime_from.isSome
      (fun m => pyTruthyOptRat m.runtime && decide ((f.runtime_from.getD 0 : ℚ) ≤ m.runtime.getD 0)) l
    let l := condFilter f.runtime_to.isSome
      (fun m => pyTruthyOptRat m.runtime && decide (m.runtime.getD 0 ≤ (f.runtime_to.getD 0 : ℚ))) l
    let l := condFilter (pyTruthyOptStr f.language)
      (fun m => m.original_language == some (f.language.getD "")) l
    let l := condFilter f.is_favorite.isSome
      (fun m => m.is_favorite == f.is_favorite.getD false) l
    let l := condFilter f.personal_rating_from.isSome
      (fun m => pyTruthyOptRat m.personal_rating && decide (f.personal_rating_from.getD 0 ≤ m.personal_rating.getD 0)) l
    let l := condFilter f.personal_rating_to.isSome
      (fun m => pyTruthyOptRat m.personal_rating && decide (m.personal_rating.getD 0 ≤ f.personal_rating_to.getD 0)) l
    l

/-- Embeds `MovieDatabase.get_movies_paginated` (the pure slice+count over a loaded
store; page and size come from the API already validated `≥ 1`). -/
def get_movies_paginated (movies : List Movie) (page size : Nat)
    (filters : Option MovieFilters) : List Movie × Nat :=
  let filtered := apply_filters movies filters
  let total := filtered.length
  let start := (page - 1) * size
  ((filtered.drop start).take size, total)

/-- The displayed page count in main.py:
`pages = math.ceil(total / size) if total > 0 else 1`
(exact ceiling; the float division is exact at these magnitudes). -/
def pagesFor (total size : Nat) : Nat :=
  if 0 < total then (total + size - 1) / size else 1

/-- The `CreateMovieCommand`: the fields `create_movie` copies into the new record. -/
structure CreateMovieCommand where
  title : Option String := none
  overview : Option String := none
  genres : List Entry := []
  keywords : List Entry := []
  tagline : Option String := none
  cast : List Entry := []
  crew : List Entry := []
  production_companies : List Entry := []
  production_countries : List Entry := []
  spoken_languages : List Entry := []
  original_language : Option String := none
  original_title : Option String := none
  release_date : Option String := none
  runtime : Option ℚ := none
  vote_average : Option ℚ := none
  vote_count : Option Int := none
  popularity : Option ℚ := none
  deriving DecidableEq

/-- The `UpdateMovieCommand`: the five fields `update_movie` reads, each a plain
nullable (models.py is not in the sources; the fields and their
`is not None` use are fixed by `update_movie`, and the spec's data-model
section records "only non-null fields overwrite"). -/
structure UpdateMovieCommand where
  title : Option String := none
  overview : Option String := none
  is_favorite : Option Bool := none
  personal_rating : Option ℚ := none
  personal_notes : Option String := none
  deriving DecidableEq

/-- Embeds `MovieDatabase.create_movie` on a loaded store: returns
(new store, new next id, returned id). -/
def create_movie (movies : List Movie) (next_id : Nat) (c : CreateMovieCommand) :
    List Movie × Nat × Nat :=
  let movie : Movie :=
    { id := next_id
      title := c.title
      overview := c.overview
      genres := c.genres
      keywords := c.keywords
      tagline := c.tagline
      cast := c.cast
      crew := c.crew
      production_companies := c.production_companies
      production_countries := c.production_countries
      spoken_languages := c.spoken_languages
      original_language := c.original_language
      original_title := c.original_title
      release_date := c.release_date
      runtime := c.runtime
      vote_average := c.vote_average
      vote_count := c.vote_count
      popularity := c.popularity
      is_favorite := false
      personal_rating := none
      personal_notes := none }
  (movies ++ [movie], next_id + 1, movie.id)

/-- The in-place field assignments of `update_movie` on the matched record:
each `if command.x is not None: movie.x = command.x`. -/
def apply_update (m : Movie) (c : UpdateMovieCommand) : Movie :=
  { m with
    title := match c.title with | some t => some t | none => m.title
    overview := match c.overview with | some t => some t | none => m.overview
    is_favorite := match c.is_favorite with | some b => b | none => m.is_favorite
    personal_rating := match c.personal_rating with | some r => some r | none => m.personal_rating
    personal_notes := match c.personal_notes with | some t => some t | none => m.personal_notes }

/-- Embeds `MovieDatabase.update_movie` on a loaded store: update the first record
with the given id in place, return `false` when no record matches. -/
def update_movie : List Movie → Nat → UpdateMovieCommand → List Movie × Bool
  | [], _, _ => ([], false)
  | m :: rest, id, c =>
    if m.id = id then (apply_update m c :: rest, true)
    else
      let r := update_movie rest id c
      (m :: r.1, r.2)

/-- Embeds `MovieDatabase.delete_movie` on a loaded store: delete the first record
with the given id, return `false` when no record matches. -/
def delete_movie : List Movie → Nat → List Movie × Bool
  | [], _ => ([], false)
  | m :: rest, id =>
    if m.id = id then (rest, true)
    else
      let r := delete_movie rest id
      (m :: r.1, r.2)

/-- Chunk splitter with explicit structural fuel; a fuel of `l.length`
always suffices when `n ≥ 1`, since every emitted chunk consumes at least
one row (the terminal catch-all is never reached then). -/
def chunkListAux (n : Nat) : Nat → List α → List (List α)
  | _, [] => []
  | 0, l => [l]
  | fuel + 1, l => l.take n :: chunkListAux n fuel (l.drop n)

/-- Split a row list into successive chunks of `n` rows (the effect of
`pd.read_csv(..., chunksize=n)`; the reader only yields nonempty chunks). -/
def chunkList (n : Nat) (l : List α) : List (List α) := chunkListAux n l.length l

/-- Embeds `MovieDatabase._load_from_csv_chunked`.  A row of the source file is
modelled by the outcome of `Movie.from_csv_row` on it: `none` when that call
raises (the row is skipped), `some m` when it returns a record (whose id
field the loader then assigns).  Ids are assigned as
`processed_count + (idx - chunk_df.index[0]) + 1` where `processed_count` is
the number of records retained so far and the offset is the row's position in
its chunk; afterwards `_next_id = len(movies) + 1`.  Returns (store, next id). -/
def load_from_csv_chunked (chunkSize : Nat) (rows : List (Option Movie)) :
    List Movie × Nat :=
  let chunks := chunkList chunkSize rows
  let movies := chunks.foldl (fun acc chunk =>
    let processed_count := acc.length
    acc ++ chunk.enum.filterMap
      (fun p => p.2.map (fun m => { m with id := processed_count + p.1 + 1 }))) []
  (movies, movies.length + 1)

/-- Embeds `MovieDatabase._load_from_chunks` (the chunk-directory path): ids are
`total_loaded + 1` where `total_loaded` counts retained records, so skipped
rows leave no holes.  Returns (store, next id). -/
def load_from_chunks (chunkRows : List (List (Option Movie))) : List Movie × Nat :=
  let movies := chunkRows.foldl (fun acc chunk =>
    chunk.foldl (fun acc2 row =>
      match row with
      | some m => acc2 ++ [{ m with id := acc2.length + 1 }]
      | none => acc2) acc) []
  (movies, movies.length + 1)

/-- The whole `MovieDatabase` mutable state, plus a counter of how many times
a bulk load was started (for the once-per-process property). -/
structure DBState where
  movies : List Movie
  next_id : Nat
  loaded : Bool
  load_attempts : Nat
  deriving DecidableEq

/-- The state of a fresh `MovieDatabase()`. -/
def initState : DBState := { movies := [], next_id := 1, loaded := false, load_attempts := 0 }

/-- The outcome the environment has in store for the bulk load: either a
record list (already id-assigned by the loader) or a raised exception. -/
inductive LoadOutcome where
  | ok : List Movie → LoadOutcome
  | failed : LoadOutcome
  deriving DecidableEq

/-- Embeds `MovieDatabase._ensure_loaded`: return at once when loaded; otherwise run
the load, and on an exception record the store as loaded with no records. -/
def ensure_loaded (o : LoadOutcome) (s : DBState) : DBState :=
  if s.loaded then s
  else
    match o with
    | .ok ms =>
      { movies := ms, next_id := ms.length + 1, loaded := true,
        load_attempts := s.load_attempts + 1 }
    | .failed =>
      { movies := [], next_id := s.next_id, loaded := true,
        load_attempts := s.load_attempts + 1 }

/-- One public operation of the store (each begins with `_ensure_loaded`). -/
inductive Op where
  | getPage : Nat → Nat → Option MovieFilters → Op
  | getById : Nat → Op
  | create : CreateMovieCommand → Op
  | update : Nat → UpdateMovieCommand → Op
  | delete : Nat → Op

/-- State effect of one operation within the process lifetime. -/
def run_op (o : LoadOutcome) (s : DBState) (op : Op) : DBState :=
  let s1 := ensure_loaded o s
  match op with
  | .getPage _ _ _ => s1
  | .getById _ => s1
  | .create c =>
    let r := create_movie s1.movies s1.next_id c
    { s1 with movies := r.1, next_id := r.2.1 }
  | .update id c => { s1 with movies := (update_movie s1.movies id c).1 }
  | .delete id => { s1 with movies := (delete_movie s1.movies id).1 }

/-- A sequence of operations in one process lifetime. -/
def run_ops (o : LoadOutcome) (s : DBState) (ops : List Op) : DBState :=
  ops.foldl (run_op o) s

/-- In-place counting dict update `d[k] = d.get(k, 0) + 1` on an
insertion-ordered association list (Python dicts preserve insertion order). -/
def dictIncr [DecidableEq κ] : List (κ × Nat) → κ → List (κ × Nat)
  | [], k => [(k, 1)]
  | (k', v) :: rest, k =>
    if k' = k then (k', v + 1) :: rest else (k', v) :: dictIncr rest k

/-- Stable insert for Python's `sorted(items, key=count, reverse=True)`:
a new item goes before the first strictly smaller count, after equals. -/
def insertCountDesc [DecidableEq κ] (x : κ × Nat) : List (κ × Nat) → List (κ × Nat)
  | [] => [x]
  | y :: ys => if y.2 < x.2 then x :: y :: ys else y :: insertCountDesc x ys

/-- Python's stable `sorted(items, key=count, reverse=True)`. -/
def sortByCountDesc [DecidableEq κ] (l : List (κ × Nat)) : List (κ × Nat) :=
  l.foldl (fun acc x => insertCountDesc x acc) []

/-- Stable insert for Python's `sorted(items)` on (decade, count) pairs with
distinct keys: a new item goes before the first strictly larger key. -/
def insertKeyAsc (x : Int × Nat) : List (Int × Nat) → List (Int × Nat)
  | [] => [x]
  | y :: ys => if x.1 < y.1 then x :: y :: ys else y :: insertKeyAsc x ys

/-- Python's `sorted(items)` on (decade, count) pairs with distinct keys. -/
def sortByKeyAsc (l : List (Int × Nat)) : List (Int × Nat) :=
  l.foldl (fun acc x => insertKeyAsc x acc) []

/-- Python's `(year // 10) * 10` (floor division). -/
def decadeOf (y : Int) : Int := y.fdiv 10 * 10

/-- The stats record returned by `get_stats` in main.py. -/
structure StatsResult where
  total_movies : Nat
  favorites_count : Nat
  rated_count : Nat
  top_genres : List (String × Nat)
  decade_distribution : List (Int × Nat)
  deriving DecidableEq

/-- Embeds `get_stats` in main.py: aggregates over
`db.get_movies_paginated(page=1, size=99999)`. -/
def get_stats (movies : List Movie) : StatsResult :=
  let pr := get_movies_paginated movies 1 99999 none
  let all_movies := pr.1
  let total_count := pr.2
  let favorites_count := (all_movies.filter (fun m => m.is_favorite)).length
  let rated_count := (all_movies.filter (fun m => m.personal_rating.isSome)).length
  let genre_counts := all_movies.foldl (fun acc m =>
    m.genres.foldl (fun a g => dictIncr a (entryName g "Unknown")) acc) []
  let top_genres := (sortByCountDesc genre_counts).take 10
  let year_counts := all_movies.foldl (fun acc m =>
    match parsedYear m.release_date with
    | some y => dictIncr acc (decadeOf y)
    | none => acc) []
  { total_movies := total_count
    favorites_count := favorites_count
    rated_count := rated_count
    top_genres := top_genres
    decade_distribution := sortByKeyAsc year_counts }

/-- The genre-name list of one record as consumed by the stats histogram. -/
def genreNamesOf (m : Movie) : List String :=
  m.genres.map (fun g => entryName g "Unknown")

/-- Spec-side count: occurrences of a genre name across the whole set
(each occurrence on each record counted). -/
def genreOccurrences (movies : List Movie) (name : String) : Nat :=
  ((movies.map genreNamesOf).flatten).count name

/-- Spec-side decade of a record: from the parsed release year, if any. -/
def movieDecade (m : Movie) : Option Int := (parsedYear m.release_date).map decadeOf

/-- Spec-side count of records falling in a decade (unparseable dates skipped). -/
def decadeCount (movies : List Movie) (d : Int) : Nat :=
  (movies.filterMap movieDecade).count d

/-- A minimal concrete record for witnesses and counterexamples. -/
def baseMovie : Movie :=
  { id := 0, title := some "Alpha", overview := none, genres := [], keywords := [],
    tagline := none, cast := [], crew := [], production_companies := [],
    production_countries := [], spoken_languages := [], original_language := none,
    original_title := none, release_date := none, runtime := none,
    vote_average := none, vote_count := none, popularity := none,
    is_favorite := false, personal_rating := none, personal_notes := none }

/-- Concrete record whose release date parses to year 2022. -/
def movie2022 : Movie := { baseMovie with release_date := some "2022-05-01" }

/-- Concrete record with an empty release date. -/
def movieEmptyDate : Movie := { baseMovie with id := 2, release_date := some "" }

/-- Concrete record with a stored personal rating. -/
def ratedMovie : Movie := { baseMovie with id := 1, personal_rating := some 5 }

/-- Concrete favorite record. -/
def favMovie : Movie := { baseMovie with id := 7, is_favorite := true }

/-- Lookup with default 0 in a counting dict, `d.get(k, 0)`. -/
def dget [DecidableEq κ] : List (κ × Nat) → κ → Nat
  | [], _ => 0
  | (k', v) :: rest, k => if k' = k then v else dget rest k

/-- A store of 100000 records whose only favorite sits in the last position,
beyond the stats aggregator's size-99999 page. -/
def bigStore : List Movie := List.replicate 99999 baseMovie ++ [favMovie]

/-- Concrete record with a genre and a parseable release date. -/
def statsMovie : Movie :=
  { baseMovie with genres := [⟨some "Action"⟩], release_date := some "1994-07-06" }

/-! ## Filter engine lemmas -/

theorem mem_condFilter {x : Movie} {a : Bool} {p : Movie → Bool} {l : List Movie} :
    x ∈ condFilter a p l ↔ x ∈ l ∧ (a = true → p x = true) := by
  cases a <;> simp [condFilter]

theorem condFilter_sublist (a : Bool) (p : Movie → Bool) (l : List Movie) :
    (condFilter a p l).Sublist l := by
  unfold condFilter
  split
  · exact List.filter_sublist l
  · exact List.Sublist.refl l

theorem apply_filters_sublist (l : List Movie) (f : Option MovieFilters) :
    (apply_filters l f).Sublist l := by
  match f with
  | none => exact List.Sublist.refl l
  | some f =>
    simp only [apply_filters]
    exact ((((((((((condFilter_sublist _ _ _).trans
      (condFilter_sublist _ _ _)).trans
      (condFilter_sublist _ _ _)).trans
      (condFilter_sublist _ _ _)).trans
      (condFilter_sublist _ _ _)).trans
      (condFilter_sublist _ _ _)).trans
      (condFilter_sublist _ _ _)).trans
      (condFilter_sublist _ _ _)).trans
      (condFilter_sublist _ _ _)).trans
      (condFilter_sublist _ _ _)).trans
      (condFilter_sublist _ _ _)

theorem apply_filters_nil (f : Option MovieFilters) : apply_filters [] f = [] :=
  List.sublist_nil.mp (apply_filters_sublist [] f)

theorem mem_apply_filters_iff {m : Movie} {l : List Movie} {f : MovieFilters} :
    m ∈ apply_filters l (some f) ↔ m ∈ l
      ∧ (pyTruthyOptStr f.search = true → search_pred (f.search.getD "") m = true)
      ∧ (pyTruthyOptList f.genres = true → genre_pred (f.genres.getD []) m = true)
      ∧ ((pyTruthyOptInt f.year_from || pyTruthyOptInt f.year_to) = true →
          check_year_filter m.release_date f.year_from f.year_to = true)
      ∧ (f.rating_from.isSome = true →
          (pyTruthyOptRat m.vote_average && decide (f.rating_from.getD 0 ≤ m.vote_average.getD 0)) = true)
      ∧ (f.rating_to.isSome = true →
          (pyTruthyOptRat m.vote_average && decide (m.vote_average.getD 0 ≤ f.rating_to.getD 0)) = true)
      ∧ (f.runtime_from.isSome = true →
          (pyTruthyOptRat m.runtime && decide ((f.runtime_from.getD 0 : ℚ) ≤ m.runtime.getD 0)) = true)
      ∧ (f.runtime_to.isSome = true →
          (pyTruthyOptRat m.runtime && decide (m.runtime.getD 0 ≤ (f.runtime_to.getD 0 : ℚ))) = true)
      ∧ (pyTruthyOptStr f.language = true →
          (m.original_language == some (f.language.getD "")) = true)
      ∧ (f.is_favorite.isSome = true →
          (m.is_favorite == f.is_favorite.getD false) = true)
      ∧ (f.personal_rating_from.isSome = true →
          (pyTruthyOptRat m.personal_rating && decide (f.personal_rating_from.getD 0 ≤ m.personal_rating.getD 0)) = true)
      ∧ (f.personal_rating_to.isSome = true →
          (pyTruthyOptRat m.personal_rating && decide (m.personal_rating.getD 0 ≤ f.personal_rating_to.getD 0)) = true) := by
  simp only [apply_filters, mem_condFilter, and_assoc]

/-- C9: applying the filter engine with no criteria object, or with a criteria
object in which every predicate group is absent, is the identity on the list;
and for every criteria the output is a sublist of the input, so filtering
never reorders, duplicates, or invents records. -/
theorem C9_no_active_filters_identity_and_order_preserved :
    (∀ l : List Movie, apply_filters l none = l) ∧
    (∀ (l : List Movie) (f : MovieFilters), f = emptyFilters → apply_filters l (some f) = l) ∧
    (∀ (l : List Movie) (f : Option MovieFilters), (apply_filters l f).Sublist l) := by
  refine ⟨fun l => rfl, ?_, fun l f => apply_filters_sublist l f⟩
  rintro l f rfl
  rfl

/-- Witness for C9 at a concrete store and the all-absent criteria. -/
theorem C9_witness :
    (emptyFilters = emptyFilters) ∧
    apply_filters [Movies.baseMovie, Movies.favMovie] (some emptyFilters) =
      [Movies.baseMovie, Movies.favMovie] :=
  ⟨rfl, C9_no_active_filters_identity_and_order_preserved.2.1
    [Movies.baseMovie, Movies.favMovie] emptyFilters rfl⟩

/-- C4: whenever a numeric range bound is active (rating, runtime, or personal
rating, lower or upper), a record whose value for the bounded attribute is
absent is excluded by the filter engine, however wide the range. -/
theorem C4_absent_numeric_value_excluded_under_active_bound
    (l : List Movie) (f : MovieFilters) (m : Movie) :
    (m.vote_average = none → (f.rating_from ≠ none ∨ f.rating_to ≠ none) →
      m ∉ apply_filters l (some f)) ∧
    (m.runtime = none → (f.runtime_from ≠ none ∨ f.runtime_to ≠ none) →
      m ∉ apply_filters l (some f)) ∧
    (m.personal_rating = none → (f.personal_rating_from ≠ none ∨ f.personal_rating_to ≠ none) →
      m ∉ apply_filters l (some f)) := by
  refine ⟨fun hv ha hm => ?_, fun hv ha hm => ?_, fun hv ha hm => ?_⟩ <;>
    rw [mem_apply_filters_iff] at hm <;>
    obtain ⟨-, -, -, -, h4, h5, h6, h7, -, -, h10, h11⟩ := hm <;>
    cases ha with
    | inl h =>
      first
      | exact absurd (h4 (Option.isSome_iff_ne_none.mpr h)) (by simp [hv, pyTruthyOptRat])
      | exact absurd (h6 (Option.isSome_iff_ne_none.mpr h)) (by simp [hv, pyTruthyOptRat])
      | exact absurd (h10 (Option.isSome_iff_ne_none.mpr h)) (by simp [hv, pyTruthyOptRat])
    | inr h =>
      first
      | exact absurd (h5 (Option.isSome_iff_ne_none.mpr h)) (by simp [hv, pyTruthyOptRat])
      | exact absurd (h7 (Option.isSome_iff_ne_none.mpr h)) (by simp [hv, pyTruthyOptRat])
      | exact absurd (h11 (Option.isSome_iff_ne_none.mpr h)) (by simp [hv, pyTruthyOptRat])

/-- Witness for C4: a record with no vote average is excluded by
an active rating_from = 0 bound. -/
theorem C4_witness :
    (Movies.baseMovie.vote_average = none ∧
      (({ rating_from := some 0 } : MovieFilters).rating_from ≠ none ∨
        ({ rating_from := some 0 } : MovieFilters).rating_to ≠ none)) ∧
    Movies.baseMovie ∉ apply_filters [Movies.baseMovie] (some { rating_from := some 0 }) :=
  ⟨⟨rfl, Or.inl (by decide)⟩,
    (C4_absent_numeric_value_excluded_under_active_bound
      [Movies.baseMovie] { rating_from := some 0 } Movies.baseMovie).1 rfl
      (Or.inl (by decide))⟩

/-- C10: under an active numeric range bound, a record whose value for the
bounded attribute is present but equal to 0 is excluded exactly like an
absent one (Python truthiness), even when 0 satisfies the bound arithmetically. -/
theorem C10_zero_numeric_value_excluded_under_active_bound
    (l : List Movie) (f : MovieFilters) (m : Movie) :
    (m.vote_average = some 0 → (f.rating_from ≠ none ∨ f.rating_to ≠ none) →
      m ∉ apply_filters l (some f)) ∧
    (m.runtime = some 0 → (f.runtime_from ≠ none ∨ f.runtime_to ≠ none) →
      m ∉ apply_filters l (some f)) ∧
    (m.personal_rating = some 0 → (f.personal_rating_from ≠ none ∨ f.personal_rating_to ≠ none) →
      m ∉ apply_filters l (some f)) := by
  refine ⟨fun hv ha hm => ?_, fun hv ha hm => ?_, fun hv ha hm => ?_⟩ <;>
    rw [mem_apply_filters_iff] at hm <;>
    obtain ⟨-, -, -, -, h4, h5, h6, h7, -, -, h10, h11⟩ := hm <;>
    cases ha with
    | inl h =>
      first
      | exact absurd (h4 (Option.isSome_iff_ne_none.mpr h)) (by simp [hv, pyTruthyOptRat])
      | exact absurd (h6 (Option.isSome_iff_ne_none.mpr h)) (by simp [hv, pyTruthyOptRat])
      | exact absurd (h10 (Option.isSome_iff_ne_none.mpr h)) (by simp [hv, pyTruthyOptRat])
    | inr h =>
      first
      | exact absurd (h5 (Option.isSome_iff_ne_none.mpr h)) (by simp [hv, pyTruthyOptRat])
      | exact absurd (h7 (Option.isSome_iff_ne_none.mpr h)) (by simp [hv, pyTruthyOptRat])
      | exact absurd (h11 (Option.isSome_iff_ne_none.mpr h)) (by simp [hv, pyTruthyOptRat])

/-- Witness for C10: runtime = 0 is excluded by runtime_to = 100 even though
0 ≤ 100. -/
theorem C10_witness :
    (({ Movies.baseMovie with runtime := some 0 } : Movie).runtime = some 0 ∧
      (({ runtime_to := some 100 } : MovieFilters).runtime_from ≠ none ∨
        ({ runtime_to := some 100 } : MovieFilters).runtime_to ≠ none)) ∧
    ({ Movies.baseMovie with runtime := some 0 } : Movie) ∉
      apply_filters [{ Movies.baseMovie with runtime := some 0 }]
        (some { runtime_to := some 100 }) :=
  ⟨⟨rfl, Or.inr (by decide)⟩,
    (C10_zero_numeric_value_excluded_under_active_bound
      [{ Movies.baseMovie with runtime := some 0 }] { runtime_to := some 100 }
      { Movies.baseMovie with runtime := some 0 }).2.1 rfl (Or.inr (by decide))⟩

/-- C5 counterexample: with the provided bound year_to = 0, a record whose
release date parses to year 2022 is kept by the filter engine, although 2022
does not satisfy the provided bound (a 0 bound is falsy and is ignored), so
the claim "keeps the record exactly when the parsed year satisfies every
provided bound" fails at this input. -/
theorem C5_counterexample :
    parsedYear movie2022.release_date = some 2022 ∧
    ¬ ((2022 : Int) ≤ 0) ∧
    apply_filters [movie2022] (some { year_to := some 0 }) = [movie2022] := by
  refine ⟨by decide, by decide, rfl⟩

/-- C5 amended: the year group parses the leading "YYYY" segment of the
release date and keeps a record exactly when the parsed year satisfies every
provided NONZERO bound (a bound given as 0 is falsy in Python and inactive);
and whenever some nonzero year bound is provided, a record with an absent or
unparseable release date is excluded by the filter engine. -/
theorem C5_year_filter_semantics_amended (l : List Movie) (f : MovieFilters)
    (m : Movie) (rd : Option String) (yf yt : Option Int) :
    (check_year_filter rd yf yt = true ↔
      ∃ y, parsedYear rd = some y ∧
        (∀ a, yf = some a → a ≠ 0 → a ≤ y) ∧
        (∀ b, yt = some b → b ≠ 0 → y ≤ b)) ∧
    ((pyTruthyOptInt f.year_from || pyTruthyOptInt f.year_to) = true →
      parsedYear m.release_date = none → m ∉ apply_filters l (some f)) := by
  constructor
  · unfold check_year_filter
    cases hpy : parsedYear rd with
    | none => simp
    | some y =>
      simp only [Option.some.injEq]
      rcases yf with _ | a <;> rcases yt with _ | b <;>
        simp [pyTruthyOptInt] <;> omega
  · intro hact hnone hm
    rw [mem_apply_filters_iff] at hm
    have h3 := hm.2.2.2.1 hact
    simp only [check_year_filter, hnone] at h3
    exact Bool.false_ne_true h3

/-- Witness for the amended C5 at a record with an empty release date and an
active year_from = 2020 bound. -/
theorem C5_witness :
    ((pyTruthyOptInt ({ year_from := some 2020 } : MovieFilters).year_from ||
        pyTruthyOptInt ({ year_from := some 2020 } : MovieFilters).year_to) = true ∧
      parsedYear movieEmptyDate.release_date = none) ∧
    movieEmptyDate ∉ apply_filters [movieEmptyDate] (some { year_from := some 2020 }) :=
  ⟨⟨by decide, by decide⟩,
    (C5_year_filter_semantics_amended [movieEmptyDate] { year_from := some 2020 }
      movieEmptyDate movieEmptyDate.release_date (some 2020) none).2
      (by decide) (by decide)⟩

/-! ## Pagination lemmas -/

theorem pages_concat {α : Type} (size : Nat) (hs : 1 ≤ size) :
    ∀ (p : Nat) (l : List α), l.length ≤ p * size →
      ((List.range p).map (fun i => (l.drop (i * size)).take size)).flatten = l := by
  intro p
  induction p with
  | zero =>
    intro l h
    have hl : l = [] := List.length_eq_zero.mp (Nat.le_zero.mp (by simpa using h))
    subst hl
    simp
  | succ p ih =>
    intro l h
    rw [List.range_succ_eq_map, List.map_cons, List.map_map]
    have hfun : ((fun i => (l.drop (i * size)).take size) ∘ Nat.succ)
        = fun i => ((l.drop size).drop (i * size)).take size := by
      funext i
      show (l.drop (Nat.succ i * size)).take size = ((l.drop size).drop (i * size)).take size
      rw [List.drop_drop, Nat.succ_mul, Nat.add_comm (i * size) size]
    rw [hfun]
    simp only [List.flatten_cons, Nat.zero_mul, List.drop_zero]
    rw [ih (l.drop size) ?_]
    · exact List.take_append_drop size l
    · rw [List.length_drop]
      rw [Nat.succ_mul] at h
      generalize p * size = ps at h ⊢
      omega

theorem pagesFor_bounds (total size : Nat) (hs : 1 ≤ size) (ht : 0 < total) :
    (pagesFor total size - 1) * size < total ∧ total ≤ pagesFor total size * size := by
  have hpf : pagesFor total size = (total + size - 1) / size := by simp [pagesFor, ht]
  rw [hpf]
  set q := (total + size - 1) / size with hq
  obtain ⟨r, hr1, hr2⟩ : ∃ r, size * q + r = total + size - 1 ∧ r < size :=
    ⟨(total + size - 1) % size, Nat.div_add_mod _ _, Nat.mod_lt _ (by omega)⟩
  have hq1 : 1 ≤ q := by
    rw [hq]
    exact (Nat.one_le_div_iff (by omega)).mpr (by omega)
  have hm1 : (q - 1) * size = size * q - size := by
    rw [Nat.sub_mul, one_mul, Nat.mul_comm]
  have hm2 : q * size = size * q := Nat.mul_comm q size
  have hsz : size ≤ size * q := by
    calc size = size * 1 := by ring
    _ ≤ size * q := Nat.mul_le_mul_left size hq1
  rw [hm1, hm2]
  generalize size * q = sq at hr1 hsz ⊢
  omega

/-- C3: `get_movies_paginated` returns the `(page-1)*size ..< (page-1)*size+size`
slice of the filtered list together with the count of filtered matches; the
slice has at most `size` items; an out-of-range start yields `[]`; the
displayed page count is the ceiling of total/size with a floor of 1 at zero;
and concatenating pages `1..pages` reconstructs the filtered list exactly. -/
theorem C3_pagination_slices_and_reconstruction (movies : List Movie)
    (f : Option MovieFilters) (page size : Nat) (hp : 1 ≤ page) (hs : 1 ≤ size) :
    (get_movies_paginated movies page size f).2 = (apply_filters movies f).length ∧
    (get_movies_paginated movies page size f).1 =
      ((apply_filters movies f).drop ((page - 1) * size)).take size ∧
    (get_movies_paginated movies page size f).1.length ≤ size ∧
    ((apply_filters movies f).length ≤ (page - 1) * size →
      (get_movies_paginated movies page size f).1 = []) ∧
    (∀ total : Nat, 0 < total →
      (pagesFor total size - 1) * size < total ∧ total ≤ pagesFor total size * size) ∧
    pagesFor 0 size = 1 ∧
    ((List.range (pagesFor (apply_filters movies f).length size)).map
        (fun i => (get_movies_paginated movies (i + 1) size f).1)).flatten =
      apply_filters movies f := by
  refine ⟨rfl, rfl, ?_, ?_, fun total ht => pagesFor_bounds total size hs ht,
    by simp [pagesFor], ?_⟩
  · simp only [get_movies_paginated]
    exact List.length_take_le size _
  · intro h
    simp only [get_movies_paginated]
    rw [List.drop_eq_nil_of_le h, List.take_nil]
  · have hlen : (apply_filters movies f).length ≤
        pagesFor (apply_filters movies f).length size * size := by
      by_cases ht : 0 < (apply_filters movies f).length
      · exact (pagesFor_bounds _ size hs ht).2
      · have h0 : (apply_filters movies f).length = 0 := by omega
        rw [h0]
        exact Nat.zero_le _
    have hcc := pages_concat size hs (pagesFor (apply_filters movies f).length size)
      (apply_filters movies f) hlen
    have hfun : (fun i => (get_movies_paginated movies (i + 1) size f).1)
        = fun i => ((apply_filters movies f).drop (i * size)).take size := by
      funext i
      simp [get_movies_paginated, Nat.add_sub_cancel]
    rw [hfun]
    exact hcc

/-- Witness for C3: pages 1..2 of a 3-record store at size 2 reconstruct the
filtered list. -/
theorem C3_witness :
    ((List.range (pagesFor (apply_filters [baseMovie, favMovie, movie2022] none).length 2)).map
        (fun i => (get_movies_paginated [baseMovie, favMovie, movie2022] (i + 1) 2 none).1)).flatten =
      apply_filters [baseMovie, favMovie, movie2022] none :=
  (C3_pagination_slices_and_reconstruction [baseMovie, favMovie, movie2022] none 2 2
    (by decide) (by decide)).2.2.2.2.2.2

/-! ## Update lemmas -/

theorem update_movie_not_found (movies : List Movie) (id : Nat) (c : UpdateMovieCommand)
    (h : ∀ m ∈ movies, m.id ≠ id) : update_movie movies id c = (movies, false) := by
  induction movies with
  | nil => rfl
  | cons a rest ih =>
    have ha : a.id ≠ id := h a (List.mem_cons_self a rest)
    have hrest := ih (fun m hm => h m (List.mem_cons_of_mem a hm))
    simp [update_movie, ha, hrest]

theorem update_movie_found (movies : List Movie) (id : Nat) (c : UpdateMovieCommand)
    (h : ∃ m ∈ movies, m.id = id) :
    ∃ pre m suf, movies = pre ++ m :: suf ∧ (∀ x ∈ pre, x.id ≠ id) ∧ m.id = id ∧
      update_movie movies id c = (pre ++ apply_update m c :: suf, true) := by
  induction movies with
  | nil => simp at h
  | cons a rest ih =>
    by_cases ha : a.id = id
    · exact ⟨[], a, rest, rfl, by simp, ha, by simp [update_movie, ha]⟩
    · obtain ⟨m, hm, hid⟩ := h
      rcases List.mem_cons.mp hm with rfl | hmem
      · exact absurd hid ha
      · obtain ⟨pre, m', suf, heq, hpre, hid', hupd⟩ := ih ⟨m, hmem, hid⟩
        refine ⟨a :: pre, m', suf, by simp [heq], ?_, hid', ?_⟩
        · intro x hx
          rcases List.mem_cons.mp hx with rfl | hx'
          · exact ha
          · exact hpre x hx'
        · simp [update_movie, ha, hupd]

/-- C7: an update command providing only `is_favorite` rewrites exactly that
flag on the first record with the given id and leaves every other field of
that record and every other record unchanged; an update for an id present in
no record returns failure and leaves the store unchanged. -/
theorem C7_update_frame (movies : List Movie) (id : Nat) (b : Bool)
    (c : UpdateMovieCommand) :
    ((∀ m ∈ movies, m.id ≠ id) → update_movie movies id c = (movies, false)) ∧
    ((∃ m ∈ movies, m.id = id) →
      ∃ pre m suf, movies = pre ++ m :: suf ∧ (∀ x ∈ pre, x.id ≠ id) ∧ m.id = id ∧
        update_movie movies id { is_favorite := some b } =
          (pre ++ { m with is_favorite := b } :: suf, true)) := by
  refine ⟨fun h => update_movie_not_found movies id c h, fun h => ?_⟩
  obtain ⟨pre, m, suf, heq, hpre, hid, hupd⟩ :=
    update_movie_found movies id { is_favorite := some b } h
  exact ⟨pre, m, suf, heq, hpre, hid, hupd⟩

/-- Witness for C7: updating a missing id leaves the concrete store unchanged. -/
theorem C7_witness :
    (∀ m ∈ [ratedMovie, favMovie], m.id ≠ 99) ∧
    update_movie [ratedMovie, favMovie] 99 { is_favorite := some true } =
      ([ratedMovie, favMovie], false) :=
  ⟨by decide,
    (C7_update_frame [ratedMovie, favMovie] 99 true { is_favorite := some true }).1
      (by decide)⟩

/-- C2 counterexample: a record stores personal_rating = 5; an update command
that provides personal_rating explicitly as null (which is the same value as
omitting it — the command has plain nullable fields) succeeds but leaves the
stored rating at 5 instead of clearing it, refuting the claim that an
explicitly provided null overwrites the stored value. -/
theorem C2_counterexample :
    (update_movie [ratedMovie] 1 { personal_rating := none }).2 = true ∧
    (update_movie [ratedMovie] 1 { personal_rating := none }).1.map
      (fun m => m.personal_rating) = [some 5] ∧
    ratedMovie.personal_rating = some 5 := by
  refine ⟨rfl, by decide, rfl⟩

/-- C2 amended: update applies exactly the fields provided as non-null; a
field whose value is null — whether omitted or explicitly cleared, the
command cannot tell the two apart — leaves the stored value unchanged, so an
explicit null never clears `personal_rating` or `personal_notes`; an update
for an absent id returns failure and changes nothing. -/
theorem C2_update_null_field_semantics (movies : List Movie) (id : Nat)
    (c : UpdateMovieCommand) :
    ((∀ m ∈ movies, m.id ≠ id) → update_movie movies id c = (movies, false)) ∧
    ((∃ m ∈ movies, m.id = id) →
      ∃ pre m suf, movies = pre ++ m :: suf ∧ m.id = id ∧
        update_movie movies id c = (pre ++ apply_update m c :: suf, true)) ∧
    (∀ m : Movie,
      (c.personal_rating = none → (apply_update m c).personal_rating = m.personal_rating) ∧
      (∀ r, c.personal_rating = some r → (apply_update m c).personal_rating = some r) ∧
      (c.personal_notes = none → (apply_update m c).personal_notes = m.personal_notes) ∧
      (∀ t, c.personal_notes = some t → (apply_update m c).personal_notes = some t) ∧
      (c.title = none → (apply_update m c).title = m.title) ∧
      (c.overview = none → (apply_update m c).overview = m.overview) ∧
      (c.is_favorite = none → (apply_update m c).is_favorite = m.is_favorite)) := by
  refine ⟨fun h => update_movie_not_found movies id c h, fun h => ?_, fun m => ?_⟩
  · obtain ⟨pre, m, suf, heq, _, hid, hupd⟩ := update_movie_found movies id c h
    exact ⟨pre, m, suf, heq, hid, hupd⟩
  · refine ⟨fun h => ?_, fun r h => ?_, fun h => ?_, fun t h => ?_,
      fun h => ?_, fun h => ?_, fun h => ?_⟩ <;> simp [apply_update, h]

/-- Witness for the amended C2: a null personal_rating leaves the stored
value 5 in place on the concrete store. -/
theorem C2_witness :
    (({ personal_rating := none } : UpdateMovieCommand).personal_rating = none) ∧
    (apply_update ratedMovie { personal_rating := none }).personal_rating =
      ratedMovie.personal_rating :=
  ⟨rfl, ((C2_update_null_field_semantics [ratedMovie] 1
    { personal_rating := none }).2.2 ratedMovie).1 rfl⟩

/-! ## Counting-dict lemmas -/

theorem dget_dictIncr_self [DecidableEq κ] (d : List (κ × Nat)) (k : κ) :
    dget (dictIncr d k) k = dget d k + 1 := by
  induction d with
  | nil => simp [dictIncr, dget]
  | cons p rest ih =>
    obtain ⟨k', v⟩ := p
    by_cases h : k' = k
    · simp [dictIncr, dget, h]
    · simp [dictIncr, dget, h, ih]

theorem dget_dictIncr_ne [DecidableEq κ] (d : List (κ × Nat)) (k k' : κ)
    (h : k' ≠ k) : dget (dictIncr d k) k' = dget d k' := by
  induction d with
  | nil =>
    simp only [dictIncr, dget]
    rw [if_neg (fun hh : k = k' => h hh.symm)]
  | cons p rest ih =>
    obtain ⟨k'', v⟩ := p
    simp only [dictIncr]
    by_cases h2 : k'' = k
    · rw [if_pos h2]
      subst h2
      simp only [dget]
      rw [if_neg (fun hh : k'' = k' => h hh.symm), if_neg (fun hh : k'' = k' => h hh.symm)]
    · rw [if_neg h2]
      simp only [dget]
      by_cases h3 : k'' = k'
      · rw [if_pos h3, if_pos h3]
      · rw [if_neg h3, if_neg h3, ih]

theorem mem_dkeys_dictIncr [DecidableEq κ] (d : List (κ × Nat)) (k k' : κ) :
    k' ∈ (dictIncr d k).map Prod.fst ↔ k' ∈ d.map Prod.fst ∨ k' = k := by
  induction d with
  | nil => simp [dictIncr]
  | cons p rest ih =>
    obtain ⟨k'', v⟩ := p
    by_cases h : k'' = k
    · subst h
      by_cases h2 : k' = k''
      · simp [dictIncr, h2]
      · simp [dictIncr, h2]
    · simp [dictIncr, h, ih, or_assoc]

theorem dkeys_dictIncr_nodup [DecidableEq κ] (d : List (κ × Nat)) (k : κ)
    (h : (d.map Prod.fst).Nodup) : ((dictIncr d k).map Prod.fst).Nodup := by
  induction d with
  | nil => simp [dictIncr]
  | cons p rest ih =>
    obtain ⟨k'', v⟩ := p
    simp only [List.map_cons, List.nodup_cons] at h
    by_cases h2 : k'' = k
    · simpa [dictIncr, h2, List.nodup_cons] using h
    · simp only [dictIncr, h2, if_false, List.map_cons, List.nodup_cons]
      refine ⟨fun hmem => ?_, ih h.2⟩
      rcases (mem_dkeys_dictIncr rest k k'').mp hmem with hin | heq
      · exact h.1 hin
      · exact h2 heq

theorem dget_of_mem_nodup [DecidableEq κ] (d : List (κ × Nat)) (k : κ) (v : Nat)
    (hmem : (k, v) ∈ d) (hnd : (d.map Prod.fst).Nodup) : dget d k = v := by
  induction d with
  | nil => simp at hmem
  | cons p rest ih =>
    obtain ⟨k'', v''⟩ := p
    simp only [List.map_cons, List.nodup_cons] at hnd
    rcases List.mem_cons.mp hmem with heq | hin
    · obtain ⟨rfl, rfl⟩ := Prod.mk.injEq .. ▸ heq
      · simp [dget]
    · by_cases h2 : k'' = k
      · subst h2
        exact absurd (List.mem_map_of_mem Prod.fst hin) hnd.1
      · simp [dget, h2, ih hin hnd.2]

theorem mem_of_mem_dkeys [DecidableEq κ] (d : List (κ × Nat)) (k : κ)
    (h : k ∈ d.map Prod.fst) : (k, dget d k) ∈ d := by
  induction d with
  | nil => simp at h
  | cons p rest ih =>
    obtain ⟨k'', v''⟩ := p
    by_cases h2 : k'' = k
    · subst h2
      simp [dget]
    · simp only [List.map_cons, List.mem_cons] at h
      rcases h with heq | hin
      · exact absurd heq.symm h2
      · simp only [dget, h2, if_false]
        exact List.mem_cons_of_mem _ (ih hin)

theorem dget_foldl_dictIncr [DecidableEq κ] (l : List κ) (k : κ) :
    ∀ d : List (κ × Nat), dget (l.foldl dictIncr d) k = dget d k + l.count k := by
  induction l with
  | nil => simp
  | cons c rest ih =>
    intro d
    show dget (rest.foldl dictIncr (dictIncr d c)) k = dget d k + (c :: rest).count k
    rw [ih (dictIncr d c)]
    by_cases h : c = k
    · subst h
      rw [dget_dictIncr_self]
      simp [List.count_cons]
      omega
    · rw [dget_dictIncr_ne d c k (fun hh => h hh.symm)]
      simp [List.count_cons, h]

theorem mem_dkeys_foldl_dictIncr [DecidableEq κ] (l : List κ) (k : κ) :
    ∀ d : List (κ × Nat),
      k ∈ (l.foldl dictIncr d).map Prod.fst ↔ k ∈ d.map Prod.fst ∨ k ∈ l := by
  induction l with
  | nil => simp
  | cons c rest ih =>
    intro d
    show k ∈ ((rest.foldl dictIncr (dictIncr d c)).map Prod.fst) ↔ _
    rw [ih (dictIncr d c), mem_dkeys_dictIncr]
    simp [List.mem_cons, or_assoc, or_comm, or_left_comm]

theorem dkeys_foldl_dictIncr_nodup [DecidableEq κ] (l : List κ) :
    ∀ d : List (κ × Nat), (d.map Prod.fst).Nodup →
      ((l.foldl dictIncr d).map Prod.fst).Nodup := by
  induction l with
  | nil => exact fun d h => h
  | cons c rest ih =>
    intro d h
    exact ih (dictIncr d c) (dkeys_dictIncr_nodup d c h)

/-! ## Stable sort lemmas -/

theorem mem_insertCountDesc [DecidableEq κ] (x z : κ × Nat) (l : List (κ × Nat)) :
    z ∈ insertCountDesc x l ↔ z = x ∨ z ∈ l := by
  induction l with
  | nil => simp [insertCountDesc]
  | cons y ys ih =>
    by_cases h : y.2 < x.2
    · simp [insertCountDesc, h]
    · simp [insertCountDesc, h, ih, or_left_comm]

theorem perm_insertCountDesc [DecidableEq κ] (x : κ × Nat) (l : List (κ × Nat)) :
    (insertCountDesc x l).Perm (x :: l) := by
  induction l with
  | nil => simp [insertCountDesc]
  | cons y ys ih =>
    by_cases h : y.2 < x.2
    · simp [insertCountDesc, h]
    · simp only [insertCountDesc, h, if_false]
      exact (ih.cons y).trans (List.Perm.swap x y ys)

theorem perm_sortByCountDesc [DecidableEq κ] (l : List (κ × Nat)) :
    (sortByCountDesc l).Perm l := by
  have key : ∀ (l acc : List (κ × Nat)),
      (l.foldl (fun a x => insertCountDesc x a) acc).Perm (l ++ acc) := by
    intro l
    induction l with
    | nil => simp
    | cons x xs ih =>
      intro acc
      have h1 := ih (insertCountDesc x acc)
      have h2 : (xs ++ insertCountDesc x acc).Perm (xs ++ x :: acc) :=
        (perm_insertCountDesc x acc).append_left xs
      have h3 : (xs ++ x :: acc).Perm (x :: (xs ++ acc)) := List.perm_middle
      exact (h1.trans (h2.trans h3)).trans (List.Perm.refl _)
  simpa using key l []

theorem pairwise_insertCountDesc [DecidableEq κ] (x : κ × Nat) (l : List (κ × Nat))
    (h : l.Pairwise (fun a b => b.2 ≤ a.2)) :
    (insertCountDesc x l).Pairwise (fun a b => b.2 ≤ a.2) := by
  induction l with
  | nil => simp [insertCountDesc]
  | cons y ys ih =>
    rw [List.pairwise_cons] at h
    by_cases hlt : y.2 < x.2
    · simp only [insertCountDesc, hlt, if_true]
      rw [List.pairwise_cons]
      refine ⟨?_, List.pairwise_cons.mpr h⟩
      intro z hz
      rcases List.mem_cons.mp hz with rfl | hz'
      · omega
      · have := h.1 z hz'
        omega
    · simp only [insertCountDesc, hlt, if_false]
      rw [List.pairwise_cons]
      refine ⟨?_, ih h.2⟩
      intro z hz
      rcases (mem_insertCountDesc x z ys).mp hz with rfl | hz'
      · omega
      · exact h.1 z hz'

theorem pairwise_sortByCountDesc [DecidableEq κ] (l : List (κ × Nat)) :
    (sortByCountDesc l).Pairwise (fun a b => b.2 ≤ a.2) := by
  have key : ∀ (l acc : List (κ × Nat)),
      acc.Pairwise (fun a b => b.2 ≤ a.2) →
      (l.foldl (fun a x => insertCountDesc x a) acc).Pairwise (fun a b => b.2 ≤ a.2) := by
    intro l
    induction l with
    | nil => exact fun acc h => h
    | cons x xs ih =>
      intro acc h
      exact ih (insertCountDesc x acc) (pairwise_insertCountDesc x acc h)
  exact key l [] (List.Pairwise.nil)

theorem mem_insertKeyAsc (x z : Int × Nat) (l : List (Int × Nat)) :
    z ∈ insertKeyAsc x l ↔ z = x ∨ z ∈ l := by
  induction l with
  | nil => simp [insertKeyAsc]
  | cons y ys ih =>
    by_cases h : x.1 < y.1
    · simp [insertKeyAsc, h]
    · simp [insertKeyAsc, h, ih, or_left_comm]

theorem perm_insertKeyAsc (x : Int × Nat) (l : List (Int × Nat)) :
    (insertKeyAsc x l).Perm (x :: l) := by
  induction l with
  | nil => simp [insertKeyAsc]
  | cons y ys ih =>
    by_cases h : x.1 < y.1
    · simp [insertKeyAsc, h]
    · simp only [insertKeyAsc, h, if_false]
      exact (ih.cons y).trans (List.Perm.swap x y ys)

theorem perm_sortByKeyAsc (l : List (Int × Nat)) : (sortByKeyAsc l).Perm l := by
  have key : ∀ (l acc : List (Int × Nat)),
      (l.foldl (fun a x => insertKeyAsc x a) acc).Perm (l ++ acc) := by
    intro l
    induction l with
    | nil => simp
    | cons x xs ih =>
      intro acc
      have h1 := ih (insertKeyAsc x acc)
      have h2 : (xs ++ insertKeyAsc x acc).Perm (xs ++ x :: acc) :=
        (perm_insertKeyAsc x acc).append_left xs
      exact (h1.trans (h2.trans List.perm_middle)).trans (List.Perm.refl _)
  simpa using key l []

theorem pairwise_insertKeyAsc (x : Int × Nat) (l : List (Int × Nat))
    (h : l.Pairwise (fun a b => a.1 ≤ b.1)) :
    (insertKeyAsc x l).Pairwise (fun a b => a.1 ≤ b.1) := by
  induction l with
  | nil => simp [insertKeyAsc]
  | cons y ys ih =>
    rw [List.pairwise_cons] at h
    by_cases hlt : x.1 < y.1
    · simp only [insertKeyAsc, hlt, if_true]
      rw [List.pairwise_cons]
      refine ⟨?_, List.pairwise_cons.mpr h⟩
      intro z hz
      rcases List.mem_cons.mp hz with rfl | hz'
      · omega
      · have := h.1 z hz'
        omega
    · simp only [insertKeyAsc, hlt, if_false]
      rw [List.pairwise_cons]
      refine ⟨?_, ih h.2⟩
      intro z hz
      rcases (mem_insertKeyAsc x z ys).mp hz with rfl | hz'
      · omega
      · exact h.1 z hz'

theorem pairwise_sortByKeyAsc (l : List (Int × Nat)) :
    (sortByKeyAsc l).Pairwise (fun a b => a.1 ≤ b.1) := by
  have key : ∀ (l acc : List (Int × Nat)),
      acc.Pairwise (fun a b => a.1 ≤ b.1) →
      (l.foldl (fun a x => insertKeyAsc x a) acc).Pairwise (fun a b => a.1 ≤ b.1) := by
    intro l
    induction l with
    | nil => exact fun acc h => h
    | cons x xs ih =>
      intro acc h
      exact ih (insertKeyAsc x acc) (pairwise_insertKeyAsc x acc h)
  exact key l [] (List.Pairwise.nil)

/-! ## Loading and identifier assignment -/

/-- C1 (violated by the code): in the single-CSV load path, a 3-row file whose
middle row fails to parse yields records with ids [1, 3] but `_next_id = 3`:
the very next create returns id 3, which is already assigned to a loaded
record, so ids are neither fresh nor strictly greater than all previously
assigned ones, and the store now holds a duplicate id. -/
theorem C1_id_reuse_after_skipped_row :
    (load_from_csv_chunked 200 [some baseMovie, none, some baseMovie]).1.map
      (fun m => m.id) = [1, 3] ∧
    (load_from_csv_chunked 200 [some baseMovie, none, some baseMovie]).2 = 3 ∧
    (create_movie (load_from_csv_chunked 200 [some baseMovie, none, some baseMovie]).1
      (load_from_csv_chunked 200 [some baseMovie, none, some baseMovie]).2 {}).2.2 = 3 ∧
    3 ∈ (load_from_csv_chunked 200 [some baseMovie, none, some baseMovie]).1.map
      (fun m => m.id) ∧
    ¬ ((create_movie (load_from_csv_chunked 200 [some baseMovie, none, some baseMovie]).1
        (load_from_csv_chunked 200 [some baseMovie, none, some baseMovie]).2 {}).1.map
      (fun m => m.id)).Nodup := by
  refine ⟨?_, rfl, rfl, ?_, ?_⟩ <;> decide

/-- The chunk-directory load path, by contrast, assigns the contiguous ids
1..n even across skipped rows, so `_next_id = n + 1` is fresh there. -/
theorem load_from_chunks_ids_contiguous :
    (load_from_chunks [[some baseMovie, none, some baseMovie]]).1.map
      (fun m => m.id) = [1, 2] ∧
    (load_from_chunks [[some baseMovie, none, some baseMovie]]).2 = 3 := by
  exact ⟨by decide, rfl⟩

/-! ## Lazy loading state machine -/

theorem ensure_loaded_loaded (o : LoadOutcome) (s : DBState) :
    (ensure_loaded o s).loaded = true := by
  by_cases h : s.loaded <;> cases o <;> simp [ensure_loaded, h]

theorem ensure_loaded_of_loaded (o : LoadOutcome) (s : DBState)
    (h : s.loaded = true) : ensure_loaded o s = s := by
  simp [ensure_loaded, h]

theorem run_op_loaded (o : LoadOutcome) (s : DBState) (op : Op) :
    (run_op o s op).loaded = true := by
  cases op <;> simp [run_op, ensure_loaded_loaded]

theorem run_op_attempts (o : LoadOutcome) (s : DBState) (op : Op) :
    (run_op o s op).load_attempts = (ensure_loaded o s).load_attempts := by
  cases op <;> simp [run_op]

theorem ensure_loaded_attempts (o : LoadOutcome) (s : DBState) :
    (ensure_loaded o s).load_attempts =
      if s.loaded = true then s.load_attempts else s.load_attempts + 1 := by
  by_cases h : s.loaded <;> cases o <;> simp [ensure_loaded, h]

theorem run_ops_of_loaded (o : LoadOutcome) (ops : List Op) :
    ∀ s : DBState, s.loaded = true →
      (run_ops o s ops).load_attempts = s.load_attempts ∧
      (run_ops o s ops).loaded = true := by
  induction ops with
  | nil => exact fun s h => ⟨rfl, h⟩
  | cons op rest ih =>
    intro s h
    have h1 := ih (run_op o s op) (run_op_loaded o s op)
    have h2 : (run_op o s op).load_attempts = s.load_attempts := by
      rw [run_op_attempts, ensure_loaded_attempts, if_pos h]
    exact ⟨by rw [show run_ops o s (op :: rest) = run_ops o (run_op o s op) rest from rfl,
      h1.1, h2], by rw [show run_ops o s (op :: rest) = run_ops o (run_op o s op) rest from rfl,
      h1.2]⟩

/-- C8: within one process lifetime the bulk load is started at most once and
never re-attempted — in particular not after a failure, which is recorded as
"loaded" with zero records (`ensure_loaded` is idempotent); a read on the
failed-and-empty store returns an empty page with total 0 rather than an
error (every operation is a total function on the state). -/
theorem C8_load_once_failure_degrades_to_empty (o : LoadOutcome) :
    (∀ ops : List Op, (run_ops o initState ops).load_attempts ≤ 1) ∧
    (∀ s : DBState, ensure_loaded o (ensure_loaded o s) = ensure_loaded o s) ∧
    (ensure_loaded .failed initState =
      { movies := [], next_id := 1, loaded := true, load_attempts := 1 }) ∧
    (∀ (page size : Nat) (f : Option MovieFilters),
      get_movies_paginated [] page size f = ([], 0)) := by
  refine ⟨?_, ?_, rfl, ?_⟩
  · intro ops
    cases ops with
    | nil => exact Nat.zero_le 1
    | cons op rest =>
      have h1 := run_ops_of_loaded o rest (run_op o initState op)
        (run_op_loaded o initState op)
      have h2 : (run_op o initState op).load_attempts = 1 := by
        rw [run_op_attempts, ensure_loaded_attempts]
        rfl
      rw [show run_ops o initState (op :: rest) = run_ops o (run_op o initState op) rest
        from rfl, h1.1, h2]
  · intro s
    exact ensure_loaded_of_loaded o _ (ensure_loaded_loaded o s)
  · intro page size f
    simp [get_movies_paginated, apply_filters_nil]

/-! ## Statistics lemmas -/

theorem genre_fold_eq (ms : List Movie) :
    ∀ d : List (String × Nat),
      ms.foldl (fun acc m =>
        m.genres.foldl (fun a g => dictIncr a (entryName g "Unknown")) acc) d =
      ((ms.map genreNamesOf).flatten).foldl dictIncr d := by
  induction ms with
  | nil => intro d; rfl
  | cons x xs ih =>
    intro d
    show xs.foldl _ (x.genres.foldl (fun a g => dictIncr a (entryName g "Unknown")) d) = _
    rw [List.map_cons, List.flatten_cons, List.foldl_append]
    rw [show (genreNamesOf x).foldl dictIncr d
        = x.genres.foldl (fun a g => dictIncr a (entryName g "Unknown")) d
      from List.foldl_map _ _ _ _]
    exact ih _

theorem decade_fold_eq (ms : List Movie) :
    ∀ d : List (Int × Nat),
      ms.foldl (fun acc m =>
        match parsedYear m.release_date with
        | some y => dictIncr acc (decadeOf y)
        | none => acc) d =
      (ms.filterMap movieDecade).foldl dictIncr d := by
  induction ms with
  | nil => intro d; rfl
  | cons x xs ih =>
    intro d
    show xs.foldl _
      (match parsedYear x.release_date with
        | some y => dictIncr d (decadeOf y)
        | none => d) = ((x :: xs).filterMap movieDecade).foldl dictIncr d
    rw [List.filterMap_cons]
    cases hx : parsedYear x.release_date with
    | none =>
      rw [show movieDecade x = none from by simp [movieDecade, hx]]
      exact ih d
    | some y =>
      rw [show movieDecade x = some (decadeOf y) from by simp [movieDecade, hx]]
      exact ih (dictIncr d (decadeOf y))

theorem filter_replicate_false {α : Type} (n : Nat) (a : α) (p : α → Bool)
    (h : p a = false) : (List.replicate n a).filter p = [] := by
  induction n with
  | zero => rfl
  | succ n ih => simp [List.replicate_succ, List.filter_cons, h, ih]

theorem get_stats_unfold (l : List Movie) :
    get_stats l = ⟨(get_movies_paginated l 1 99999 none).2,
      ((get_movies_paginated l 1 99999 none).1.filter (fun m => m.is_favorite)).length,
      ((get_movies_paginated l 1 99999 none).1.filter
        (fun m => m.personal_rating.isSome)).length,
      (sortByCountDesc ((get_movies_paginated l 1 99999 none).1.foldl
        (fun acc m =>
          m.genres.foldl (fun a g => dictIncr a (entryName g "Unknown")) acc) [])).take 10,
      sortByKeyAsc ((get_movies_paginated l 1 99999 none).1.foldl
        (fun acc m =>
          match parsedYear m.release_date with
          | some y => dictIncr acc (decadeOf y)
          | none => acc) [])⟩ := rfl

/-- C6 counterexample: the stats endpoint reads only the first 99999 records
(`get_movies_paginated(page=1, size=99999)`), so on a 100000-record store
whose only favorite is the last record it reports favorites_count = 0 while
the full record set contains 1 favorite — the aggregation is not over the
full record set. -/
theorem C6_counterexample :
    (get_stats bigStore).favorites_count = 0 ∧
    (bigStore.filter (fun m => m.is_favorite)).length = 1 ∧
    bigStore.length = 100000 := by
  have h1 : (List.replicate 99999 baseMovie).length = 99999 :=
    List.length_replicate _ _
  have htake := List.take_left (List.replicate 99999 baseMovie) [favMovie]
  rw [h1] at htake
  have hfilt : (List.replicate 99999 baseMovie).filter (fun m => m.is_favorite) = [] :=
    filter_replicate_false 99999 baseMovie _ rfl
  have hbig : bigStore = List.replicate 99999 baseMovie ++ [favMovie] := rfl
  have happ : apply_filters bigStore none = bigStore := rfl
  have he1 : (get_movies_paginated bigStore 1 99999 none).1
      = ((apply_filters bigStore none).drop ((1 - 1) * 99999)).take 99999 := rfl
  have hslice : (get_movies_paginated bigStore 1 99999 none).1 =
      List.replicate 99999 baseMovie := by
    rw [he1, happ, hbig]
    rw [show ((1 - 1) * 99999) = 0 from rfl, List.drop_zero]
    exact htake
  refine ⟨?_, ?_, ?_⟩
  · have hproj := congrArg StatsResult.favorites_count (get_stats_unfold bigStore)
    rw [hslice, hfilt] at hproj
    exact hproj.trans rfl
  · rw [hbig, List.filter_append, hfilt]
    rfl
  · rw [hbig, List.length_append, h1]
    rfl

/-- C6 amended: on every store of at most 99999 records (so that the
aggregator's single size-99999 page is the whole set), `get_stats` returns
the total count, the favorite count, the personal-rating count, a top-10
genre histogram sorted by descending frequency whose entries carry the exact
occurrence counts and dominate every omitted genre, and a decade histogram
keyed by (year // 10) * 10 sorted strictly ascending, skipping unparseable
dates; and on the empty store everything is zero/empty. -/
theorem C6_stats_amended (movies : List Movie) (h : movies.length ≤ 99999) :
    (get_stats movies).total_movies = movies.length ∧
    (get_stats movies).favorites_count = (movies.filter (fun m => m.is_favorite)).length ∧
    (get_stats movies).rated_count =
      (movies.filter (fun m => m.personal_rating.isSome)).length ∧
    (get_stats movies).top_genres.length ≤ 10 ∧
    (get_stats movies).top_genres.Pairwise (fun a b => b.2 ≤ a.2) ∧
    (∀ p ∈ (get_stats movies).top_genres,
      p.2 = genreOccurrences movies p.1 ∧ 0 < p.2) ∧
    (∀ name : String, 0 < genreOccurrences movies name →
      name ∉ (get_stats movies).top_genres.map Prod.fst →
      (get_stats movies).top_genres.length = 10 ∧
      ∀ p ∈ (get_stats movies).top_genres, genreOccurrences movies name ≤ p.2) ∧
    (get_stats movies).decade_distribution.Pairwise (fun a b => a.1 < b.1) ∧
    (∀ p ∈ (get_stats movies).decade_distribution,
      p.2 = decadeCount movies p.1 ∧ 0 < p.2) ∧
    (∀ d : Int, 0 < decadeCount movies d →
      d ∈ (get_stats movies).decade_distribution.map Prod.fst) ∧
    get_stats [] = ⟨0, 0, 0, [], []⟩ := by
  have hall : (get_movies_paginated movies 1 99999 none).1 = movies := by
    rw [show (get_movies_paginated movies 1 99999 none).1
        = ((apply_filters movies none).drop ((1 - 1) * 99999)).take 99999 from rfl]
    rw [show apply_filters movies none = movies from rfl]
    rw [show ((1 - 1) * 99999) = 0 from rfl, List.drop_zero]
    exact List.take_of_length_le h
  have hstats : get_stats movies = ⟨movies.length,
      (movies.filter (fun m => m.is_favorite)).length,
      (movies.filter (fun m => m.personal_rating.isSome)).length,
      (sortByCountDesc (((movies.map genreNamesOf).flatten).foldl dictIncr [])).take 10,
      sortByKeyAsc ((movies.filterMap movieDecade).foldl dictIncr [])⟩ := by
    rw [get_stats_unfold]
    rw [hall]
    rw [show (get_movies_paginated movies 1 99999 none).2 = movies.length from rfl]
    rw [genre_fold_eq movies [], decade_fold_eq movies []]
  rw [hstats]
  have hndk : ((((movies.map genreNamesOf).flatten).foldl dictIncr []).map Prod.fst).Nodup :=
    dkeys_foldl_dictIncr_nodup _ [] (by simp)
  have hdget : ∀ name : String,
      dget (((movies.map genreNamesOf).flatten).foldl dictIncr []) name =
        genreOccurrences movies name := by
    intro name
    rw [dget_foldl_dictIncr]
    simp [dget, genreOccurrences]
  have hndkD : (((movies.filterMap movieDecade).foldl dictIncr []).map Prod.fst).Nodup :=
    dkeys_foldl_dictIncr_nodup _ [] (by simp)
  have hdgetD : ∀ d : Int,
      dget ((movies.filterMap movieDecade).foldl dictIncr []) d = decadeCount movies d := by
    intro d
    rw [dget_foldl_dictIncr]
    simp [dget, decadeCount]
  refine ⟨rfl, rfl, rfl, ?_, ?_, ?_, ?_, ?_, ?_, ?_, rfl⟩
  · simpa using Nat.min_le_left 10 _
  · exact List.Pairwise.sublist (List.take_sublist 10 _) (pairwise_sortByCountDesc _)
  · intro p hp
    have hsmem : p ∈ sortByCountDesc (((movies.map genreNamesOf).flatten).foldl dictIncr []) :=
      (List.take_sublist 10 _).subset hp
    have hmem : p ∈ ((movies.map genreNamesOf).flatten).foldl dictIncr [] :=
      (perm_sortByCountDesc _).mem_iff.mp hsmem
    obtain ⟨k, v⟩ := p
    have hv : dget (((movies.map genreNamesOf).flatten).foldl dictIncr []) k = v :=
      dget_of_mem_nodup _ k v hmem hndk
    have hkmem : k ∈ (((movies.map genreNamesOf).flatten).foldl dictIncr []).map Prod.fst :=
      List.mem_map_of_mem Prod.fst hmem
    have hkin : k ∈ (movies.map genreNamesOf).flatten := by
      rcases (mem_dkeys_foldl_dictIncr _ k []).mp hkmem with h0 | h1
      · simp at h0
      · exact h1
    refine ⟨by rw [← hdget k, hv], ?_⟩
    show 0 < (k, v).2
    rw [show ((k, v).2 : Nat) = v from rfl, ← hv, hdget k]
    exact List.count_pos_iff.mpr hkin
  · intro name hpos hnotin
    have hkin : name ∈ (movies.map genreNamesOf).flatten := by
      rw [genreOccurrences] at hpos
      exact List.count_pos_iff.mp hpos
    have hkmem : name ∈ (((movies.map genreNamesOf).flatten).foldl dictIncr []).map Prod.fst :=
      (mem_dkeys_foldl_dictIncr _ name []).mpr (Or.inr hkin)
    have hpair : (name, dget (((movies.map genreNamesOf).flatten).foldl dictIncr []) name) ∈
        ((movies.map genreNamesOf).flatten).foldl dictIncr [] :=
      mem_of_mem_dkeys _ name hkmem
    rw [hdget name] at hpair
    have hsmem : (name, genreOccurrences movies name) ∈
        sortByCountDesc (((movies.map genreNamesOf).flatten).foldl dictIncr []) :=
      (perm_sortByCountDesc _).mem_iff.mpr hpair
    have hsplit := List.take_append_drop 10
      (sortByCountDesc (((movies.map genreNamesOf).flatten).foldl dictIncr []))
    rw [← hsplit] at hsmem
    have hdropmem : (name, genreOccurrences movies name) ∈
        (sortByCountDesc (((movies.map genreNamesOf).flatten).foldl dictIncr [])).drop 10 := by
      rcases List.mem_append.mp hsmem with h1 | h2
      · exact absurd (List.mem_map_of_mem Prod.fst h1) hnotin
      · exact h2
    have hlen : 10 <
        (sortByCountDesc (((movies.map genreNamesOf).flatten).foldl dictIncr [])).length := by
      by_contra hle
      push_neg at hle
      rw [List.drop_eq_nil_of_le hle] at hdropmem
      simp at hdropmem
    constructor
    · rw [List.length_take]
      omega
    · intro p hp
      have hpw := pairwise_sortByCountDesc (((movies.map genreNamesOf).flatten).foldl dictIncr [])
      rw [← hsplit] at hpw
      have := (List.pairwise_append.mp hpw).2.2 p hp
        (name, genreOccurrences movies name) hdropmem
      exact this
  · have hperm := perm_sortByKeyAsc ((movies.filterMap movieDecade).foldl dictIncr [])
    have hnds : ((sortByKeyAsc ((movies.filterMap movieDecade).foldl dictIncr [])).map
        Prod.fst).Nodup := ((hperm.map Prod.fst).nodup_iff).mpr hndkD
    have hne : (sortByKeyAsc ((movies.filterMap movieDecade).foldl dictIncr [])).Pairwise
        (fun a b => a.1 ≠ b.1) := List.pairwise_map.mp hnds
    exact ((pairwise_sortByKeyAsc _).and hne).imp (fun hab => lt_of_le_of_ne hab.1 hab.2)
  · intro p hp
    have hmem : p ∈ (movies.filterMap movieDecade).foldl dictIncr [] :=
      (perm_sortByKeyAsc _).mem_iff.mp hp
    obtain ⟨k, v⟩ := p
    have hv : dget ((movies.filterMap movieDecade).foldl dictIncr []) k = v :=
      dget_of_mem_nodup _ k v hmem hndkD
    have hkmem : k ∈ ((movies.filterMap movieDecade).foldl dictIncr []).map Prod.fst :=
      List.mem_map_of_mem Prod.fst hmem
    have hkin : k ∈ movies.filterMap movieDecade := by
      rcases (mem_dkeys_foldl_dictIncr _ k []).mp hkmem with h0 | h1
      · simp at h0
      · exact h1
    refine ⟨by rw [← hdgetD k, hv], ?_⟩
    show 0 < (k, v).2
    rw [show ((k, v).2 : Nat) = v from rfl, ← hv, hdgetD k]
    exact List.count_pos_iff.mpr hkin
  · intro d hpos
    have hkin : d ∈ movies.filterMap movieDecade := by
      rw [decadeCount] at hpos
      exact List.count_pos_iff.mp hpos
    have hkmem : d ∈ ((movies.filterMap movieDecade).foldl dictIncr []).map Prod.fst :=
      (mem_dkeys_foldl_dictIncr _ d []).mpr (Or.inr hkin)
    have hpair := mem_of_mem_dkeys _ d hkmem
    have hsmem : (d, dget ((movies.filterMap movieDecade).foldl dictIncr []) d) ∈
        sortByKeyAsc ((movies.filterMap movieDecade).foldl dictIncr []) :=
      (perm_sortByKeyAsc _).mem_iff.mpr hpair
    exact List.mem_map_of_mem Prod.fst hsmem

/-- Witness for the amended C6 at a concrete one-record store. -/
theorem C6_witness :
    ([statsMovie] : List Movie).length ≤ 99999 ∧
    (get_stats [statsMovie]).total_movies = 1 :=
  ⟨by decide, (C6_stats_amended [statsMovie] (by decide)).1.trans rfl⟩

end Movies
